import Mathlib

/-!
# Verification of the Amico Eco EPC Comparator (src/app.py)

A shallow embedding of the pure text-processing core of `src/app.py`:
the whitespace normalizer (`norm_ws` and the line-normalization stage of
`extract_text`), the status normalizer (`pick_status` / its inner
`choose`), the recommendation extractor (`parse_recommendations`, whose
loop body sits at lines 296-300 of the file), the SAP block of
`parse_summary`, the site-notes extractor (`parse_site_notes`), the QA
engine (`compare_site_notes`) and the numeric `delta` helpers.

Python strings are modelled as `List Char`; Python `None` becomes
`Option.none`; Python floats become `ℚ` (the numerals occurring in the
program are all exactly representable, and the program only subtracts
and compares them); regular-expression searches are modelled by
explicit leftmost-match scanners specialised to each concrete pattern
of the source.
-/

namespace AmicoEco

abbrev Chars := List Char

/-! ## Basic character classes (ASCII fragment of Python `\s`, `\w`, `\d`) -/

/-- ASCII whitespace, the characters matched by Python's `\s` on the
texts this app processes. -/
def isWsC (c : Char) : Bool :=
  c == ' ' || c == '\t' || c == '\n' || c == '\r' || c == '\x0b' || c == '\x0c'

/-- Python `\w` (ASCII fragment): alphanumeric or underscore. -/
def isWordChar (c : Char) : Bool := c.isAlphanum || c == '_'

def isDigitC (c : Char) : Bool := c.isDigit

/-! ## `norm_ws` (src/app.py line 42-43): `re.sub(r"\s+", " ", s).strip()` -/

/-- One pass over the string replacing every maximal run of whitespace
by a single `' '`.  The flag records whether we are inside a run. -/
def collapseAux : Bool → Chars → Chars
  | _, [] => []
  | inWs, c :: t =>
    if isWsC c then
      if inWs then collapseAux true t else ' ' :: collapseAux true t
    else c :: collapseAux false t

/-- Python `str.strip()`: drop whitespace from both ends. -/
def pyStrip (l : Chars) : Chars :=
  ((l.dropWhile isWsC).reverse.dropWhile isWsC).reverse

/-- `norm_ws` of src/app.py: collapse whitespace runs to a single space
and strip the ends. -/
def norm_ws (l : Chars) : Chars := pyStrip (collapseAux false l)

/-! ## Python `str.splitlines` and `"\n".join` -/

/-- Normalization of the `\r\n` and `\r` line breaks to `\n`, so that
the splitter below only has to look at `\n`.  Together they model
Python `str.splitlines()` on its `\n`, `\r`, `\r\n` break set. -/
def toLf : Chars → Chars
  | [] => []
  | '\r' :: '\n' :: t => '\n' :: toLf t
  | '\r' :: t => '\n' :: toLf t
  | c :: t => c :: toLf t

/-- Accumulator-based splitter on `'\n'`.  A final unterminated line
is kept only when nonempty, exactly as in Python `splitlines`. -/
def splitAux : Chars → Chars → List Chars
  | acc, [] => if acc.isEmpty then [] else [acc.reverse]
  | acc, '\n' :: t => acc.reverse :: splitAux [] t
  | acc, c :: t => splitAux (c :: acc) t

def splitLinesPy (s : Chars) : List Chars := splitAux [] (toLf s)

/-- `"\n".join(...)`. -/
def joinNl : List Chars → Chars
  | [] => []
  | [l] => l
  | l :: ls => l ++ '\n' :: joinNl ls

/-- The text-normalization stage of `extract_text` (src/app.py lines
61-62): normalize each line with `norm_ws`, drop lines that became
empty, and join the survivors with `"\n"`. -/
def normalize_text (s : Chars) : Chars :=
  joinNl (((splitLinesPy s).map norm_ws).filter (fun l => !l.isEmpty))

/-- `true` when no two adjacent characters are both whitespace. -/
def noTwoWs : Chars → Bool
  | c1 :: c2 :: t => (!(isWsC c1 && isWsC c2)) && noTwoWs (c2 :: t)
  | _ => true

/-- `true` when the first character (if any) is not whitespace. -/
def headNotWs : Chars → Bool
  | [] => true
  | c :: _ => !isWsC c

/-- `true` when the last character (if any) is not whitespace. -/
def lastNotWs (l : Chars) : Bool := headNotWs l.reverse

/-- No line-break characters occur in `l`. -/
def breakFree (l : Chars) : Prop := ∀ c ∈ l, c ≠ '\n' ∧ c ≠ '\r'

/-! ## Generic string helpers (Python `str.lower`, `str.title`, `in`) -/

def lowerL (l : Chars) : Chars := l.map Char.toLower

/-- Python `str.title()` (ASCII fragment): the first letter of each
run of letters is uppercased, the others lowercased. -/
def titleAux : Bool → Chars → Chars
  | _, [] => []
  | prevAlpha, c :: t =>
    if c.isAlpha then
      (if prevAlpha then c.toLower else c.toUpper) :: titleAux true t
    else c :: titleAux false t

def titlePy (l : Chars) : Chars := titleAux false l

/-- `p` is a prefix of `s` (character-exact). -/
def pfxAt : Chars → Chars → Bool
  | [], _ => true
  | _, [] => false
  | a :: as, b :: bs => a == b && pfxAt as bs

/-- Python `p in s`: `p` occurs as a contiguous substring of `s`. -/
def occursIn (p : Chars) : Chars → Bool
  | [] => pfxAt p []
  | c :: t => pfxAt p (c :: t) || occursIn p t

/-! ## `pick_status` (src/app.py lines 40, 64-71) -/

/-- `STAT_ORDER` of src/app.py line 40. -/
def STAT_ORDER : List Chars :=
  ["already installed".toList, "not applicable".toList,
   "sap increase too small".toList, "recommended".toList]

/-- The inner `choose` of `pick_status` (src/app.py lines 65-70): the
first canonical phrase occurring (case-insensitively) in the raw text
wins, title-cased; otherwise the raw text is returned stripped, with
falsy raw values (`None` or `""`) giving `""`. -/
def choose (raw : Option Chars) : Chars :=
  let txt := lowerL (raw.getD [])
  match STAT_ORDER.find? (fun token => occursIn token txt) with
  | some token => titlePy token
  | none =>
    match raw with
    | some r => if r.isEmpty then [] else pyStrip r
    | none => []

/-- `pick_status` (src/app.py lines 64-71). -/
def pick_status (preT postT : Option Chars) : Chars × Chars :=
  (choose preT, choose postT)

/-! ## Leftmost-match scanners for the concrete regular expressions -/

/-- Case-insensitive literal pattern: consumes `pat` (given lowercase)
from the head of the input, returning the rest. -/
def litCI : Chars → Chars → Option Chars
  | [], s => some s
  | _, [] => none
  | p :: ps, c :: cs => if p == c.toLower then litCI ps cs else none

/-- `\s*`: drop any run of whitespace. -/
def wsStar (s : Chars) : Chars := s.dropWhile isWsC

/-- `\s+`: at least one whitespace character, then any further run. -/
def ws1 : Chars → Option Chars
  | [] => none
  | c :: t => if isWsC c then some (wsStar t) else none

/-- `[:\-]?`: optionally consume a colon or hyphen. -/
def optColonDash : Chars → Chars
  | ':' :: t => t
  | '-' :: t => t
  | s => s

/-- `\d+`: a nonempty run of digits together with the rest. -/
def digits1 : Chars → Option (Chars × Chars)
  | s =>
    match s.span isDigitC with
    | ([], _) => none
    | (d, r) => some (d, r)

/-- Numeric value of a digit run. -/
def digitsToNat (d : Chars) : Nat :=
  d.foldl (fun acc c => 10 * acc + (c.toNat - 48)) 0

/-- `re.search`: try the position matcher at each suffix, leftmost
match first. -/
def searchPos (f : Chars → Option α) : Chars → Option α
  | [] => f []
  | c :: t =>
    match f (c :: t) with
    | some a => some a
    | none => searchPos f t

/-- `re.search` for patterns needing a word-boundary check: the
matcher also receives the character immediately before the current
position (`none` at the start of the text). -/
def searchPosCtx (f : Option Char → Chars → Option α) : Option Char → Chars → Option α
  | prev, [] => f prev []
  | prev, c :: t =>
    match f prev (c :: t) with
    | some a => some a
    | none => searchPosCtx f (some c) t

/-- Left word boundary: the previous character is absent or not a word
character. -/
def boundL (prev : Option Char) : Bool :=
  match prev with
  | some c => !isWordChar c
  | none => true

/-- Right word boundary: the next character is absent or not a word
character. -/
def boundR : Chars → Bool
  | [] => true
  | c :: _ => !isWordChar c

/-- Lazy `.*?` scan: find the earliest position at which `f` matches,
never skipping past a `'\n'` (Python `.` does not match newline). -/
def scanLine (f : Chars → Option α) : Chars → Option α
  | [] => f []
  | c :: t =>
    match f (c :: t) with
    | some a => some a
    | none => if c = '\n' then none else scanLine f t

/-! ## `to_bool`, `to_float`, `to_int` (src/app.py lines 128-158) -/

def YES_TOKENS : List Chars :=
  ["y".toList, "yes".toList, "true".toList, "present".toList, "installed".toList,
   "fitted".toList, "exists".toList, "smart".toList, "on".toList]

def NO_TOKENS : List Chars :=
  ["n".toList, "no".toList, "false".toList, "absent".toList, "none".toList,
   "not present".toList, "off".toList]

/-- `to_bool` (src/app.py lines 131-145). -/
def to_bool (raw : Option Chars) : Option Bool :=
  match raw with
  | none => none
  | some r =>
    let s := lowerL (pyStrip r)
    if YES_TOKENS.contains s then some true
    else if NO_TOKENS.contains s then some false
    else if YES_TOKENS.any (fun tok => occursIn tok s) then some true
    else if NO_TOKENS.any (fun tok => occursIn tok s) then some false
    else none

/-- `float(...)` on the digit strings this program extracts:
`digits` or `digits.digits` (commas removed and ends stripped by
`to_float` before the call; the captures fed to it already have this
shape).  Any other shape gives `none`, as `float(...)` would raise. -/
def parseFloatQ (s : Chars) : Option ℚ :=
  match s.span isDigitC with
  | ([], _) => none
  | (d, []) => some (digitsToNat d : ℚ)
  | (d, '.' :: rest) =>
    match rest.span isDigitC with
    | ([], _) => none
    | (f, []) => some ((digitsToNat d : ℚ) + (digitsToNat f : ℚ) / ((10 : ℚ) ^ f.length))
    | (_, _ :: _) => none
  | (_, _ :: _) => none

/-- `to_float` (src/app.py lines 147-154): strip, drop commas, parse. -/
def to_float (raw : Option Chars) : Option ℚ :=
  match raw with
  | none => none
  | some r => parseFloatQ (pyStrip (r.filter (fun c => c != ',')))

/-- `to_int` (src/app.py lines 156-158): `int(v)` truncates toward 0;
the values reaching it here are nonnegative. -/
def to_int (raw : Option Chars) : Option Int :=
  match to_float raw with
  | none => none
  | some q => some ⌊q⌋

/-! ## `parse_recommendations` (src/app.py lines 124-125 and 296-300)

The function header at line 124 is separated from its loop, which sits
(unreachable) at lines 296-300; the loop is the evident body and is
what the rest of the program relies on, so it is what we embed. -/

def REC_NAMES : List Chars :=
  ["Flat roof insulation".toList, "Room-in-roof insulation".toList,
   "Floor insulation (solid floor)".toList,
   "Heating controls for wet central heating system".toList,
   "Loft insulation".toList, "Cavity wall insulation".toList,
   "Draught proofing".toList, "Low energy lighting".toList]

/-- Matcher for `{name}\s*\(([^)]+)\)` at one position: the literal
name (case-insensitive), optional whitespace, `'('`, a nonempty run of
non-`')'` characters (the capture), `')'`. -/
def recAt (name : Chars) (s : Chars) : Option Chars :=
  (litCI (lowerL name) s).bind fun r1 =>
    match wsStar r1 with
    | '(' :: r2 =>
      match r2.span (fun c => c != ')') with
      | ([], _) => none
      | (cap, ')' :: _) => some cap
      | (_, _) => none
    | _ => none

/-- `re.search` of the recommendation pattern for one measure name. -/
def recCapture (name : Chars) (text : Chars) : Option Chars :=
  searchPos (recAt name) text

/-- `parse_recommendations`: one entry per measure name whose pattern
matches, mapped to the captured status, stripped and title-cased. -/
def parse_recommendations (text : Chars) : List (Chars × Chars) :=
  REC_NAMES.filterMap fun name =>
    (recCapture name text).map fun cap => (name, titlePy (pyStrip cap))

/-- The status shown for measure `name` by the `/compare` diff (src/
app.py lines 377-379): the extracted raw status — defaulting to `""`
when the name has no entry — fed through the status normalizer. -/
def recStatus (text : Chars) (name : Chars) : Chars :=
  choose (some (((parse_recommendations text).lookup name).getD []))

/-! ## The SAP block of `parse_summary` (src/app.py lines 92-95) -/

/-- A band letter under `re.IGNORECASE`: `[A-Ga-g]`. -/
def isBand (c : Char) : Bool := ('a' ≤ c.toLower) && (c.toLower ≤ 'g')

/-- Matcher at one position for
`Current SAP rating:\s*([A-G])\s*(\d+)\s*Potential SAP rating:\s*([A-G])\s*(\d+)`. -/
def sapAt (s : Chars) : Option (Char × Nat × Char × Nat) :=
  (litCI "current sap rating:".toList s).bind fun r1 =>
    match wsStar r1 with
    | b1 :: r2 =>
      if isBand b1 then
        (digits1 (wsStar r2)).bind fun (d1, r3) =>
          (litCI "potential sap rating:".toList (wsStar r3)).bind fun r4 =>
            match wsStar r4 with
            | b2 :: r5 =>
              if isBand b2 then
                (digits1 (wsStar r5)).map fun (d2, _) =>
                  (b1, digitsToNat d1, b2, digitsToNat d2)
              else none
            | [] => none
      else none
    | [] => none

def sapSearch (text : Chars) : Option (Char × Nat × Char × Nat) :=
  searchPos sapAt text

/-- The four SAP fields of the summary dictionary: set together from
the single combined match, absent together when it fails. -/
structure SapFields where
  sap_current_band : Option Char
  sap_current : Option Nat
  sap_potential_band : Option Char
  sap_potential : Option Nat
deriving DecidableEq

/-- The SAP block of `parse_summary`. -/
def parse_summary_sap (text : Chars) : SapFields :=
  match sapSearch text with
  | some (b1, n1, b2, n2) => ⟨some b1, some n1, some b2, some n2⟩
  | none => ⟨none, none, none, none⟩

/-! ## `parse_site_notes` (src/app.py lines 160-224)

One leftmost-match scanner per regular expression of the source.  Each
`..At` function matches its pattern at a single position; `searchPos`
(or `searchPosCtx` for patterns with `\b`) turns it into `re.search`. -/

/-- The text consumed between the start suffix `s` and the rest `rest`
(used for `m.group(0)`-style captures). -/
def consumed (s rest : Chars) : Chars := s.take (s.length - rest.length)

/-- An alternation of literal tokens, tried in pattern order.  The
canonical (lowercase) token is returned; every consumer lowercases the
capture before use, so this is observationally the captured text. -/
def tokenAlt (toks : List Chars) (s : Chars) : Option Chars :=
  toks.findSome? fun tok => (litCI tok s).map fun _ => tok

/-- The optional `\s*[:\-]?\s*(tok₁|tok₂|…)` suffix used by several
site-note patterns. -/
def optSuffix (toks : List Chars) (r : Chars) : Option Chars :=
  tokenAlt toks (wsStar (optColonDash (wsStar r)))

def TOKS8 : List Chars :=
  ["yes", "no", "present", "absent", "true", "false", "on", "off"].map String.toList

def TOKS6 : List Chars :=
  ["yes", "no", "present", "absent", "true", "false"].map String.toList

/-- `smart\s+gas\s+meter(?:\s*[:\-]?\s*(yes|…|off))?` at one position;
yields the string fed to `to_bool`: the capture when the optional
group participates, else the whole match (`m.group(0)`). -/
def sgmAt (s : Chars) : Option Chars :=
  (litCI "smart".toList s).bind fun r1 => (ws1 r1).bind fun r2 =>
  (litCI "gas".toList r2).bind fun r3 => (ws1 r3).bind fun r4 =>
  (litCI "meter".toList r4).bind fun r5 =>
    some (match optSuffix TOKS8 r5 with
          | some tok => tok
          | none => consumed s r5)

/-- `smart\s+electric(\w*)\s+meter(?:…)?`: the code always feeds
`m.group(1)` — the `(\w*)` capture — to `to_bool` (the group always
participates, so `m.lastindex` is truthy). -/
def semAt (s : Chars) : Option Chars :=
  (litCI "smart".toList s).bind fun r1 => (ws1 r1).bind fun r2 =>
  (litCI "electric".toList r2).bind fun r3 =>
    let (w, r4) := r3.span isWordChar
    (ws1 r4).bind fun r5 => (litCI "meter".toList r5).map fun _ => w

/-- The optional `\s*[:\-]?\s*(\d+)\s*mm` suffix. -/
def mmOpt (r : Chars) : Option Chars :=
  (digits1 (wsStar (optColonDash (wsStar r)))).bind fun (d, r2) =>
    (litCI "mm".toList (wsStar r2)).map fun _ => d

/-- `loft\s+insulation(?:\s*[:\-]?\s*(\d+)\s*mm)?`: `some (some d)`
when the millimetre group participates, `some none` for a bare match. -/
def loftAt (s : Chars) : Option (Option Chars) :=
  (litCI "loft".toList s).bind fun r1 => (ws1 r1).bind fun r2 =>
  (litCI "insulation".toList r2).map fun r3 => mmOpt r3

def cavCont (s : Chars) (r : Chars) : Option Chars :=
  (ws1 r).bind fun r1 => (litCI "wall".toList r1).bind fun r2 =>
  (ws1 r2).bind fun r3 => (litCI "insulation".toList r3).bind fun r4 =>
    some (match optSuffix TOKS6 r4 with
          | some tok => tok
          | none => consumed s r4)

/-- `(?:cavity|cav)\s+wall\s+insulation(?:\s*[:\-]?\s*(yes|…))?`. -/
def cavAt (s : Chars) : Option Chars :=
  (match litCI "cavity".toList s with
   | some r => cavCont s r
   | none => none) <|>
  ((litCI "cav".toList s).bind (cavCont s))

/-- `(internal|solid)\s+wall\s+insulation(?:\s*[:\-]?\s*(\d+)\s*mm)?`. -/
def iwiAt (s : Chars) : Option (Option Chars) :=
  ((litCI "internal".toList s) <|> (litCI "solid".toList s)).bind fun r1 =>
  (ws1 r1).bind fun r2 => (litCI "wall".toList r2).bind fun r3 =>
  (ws1 r3).bind fun r4 => (litCI "insulation".toList r4).map fun r5 => mmOpt r5

/-- `flat\s+roof\s+insulation(?:\s*[:\-]?\s*(yes|…))?`. -/
def friAt (s : Chars) : Option Chars :=
  (litCI "flat".toList s).bind fun r1 => (ws1 r1).bind fun r2 =>
  (litCI "roof".toList r2).bind fun r3 => (ws1 r3).bind fun r4 =>
  (litCI "insulation".toList r4).bind fun r5 =>
    some (match optSuffix TOKS6 r5 with
          | some tok => tok
          | none => consumed s r5)

/-- `\bMEV\b|\bdecentralised\s+extract\b|\bMVHR\b|\bmechanical\s+ventilation\b`. -/
def mvAt (prev : Option Char) (s : Chars) : Option Unit :=
  if boundL prev then
    ((litCI "mev".toList s).bind fun r => if boundR r then some () else none) <|>
    ((litCI "decentralised".toList s).bind fun r1 => (ws1 r1).bind fun r2 =>
      (litCI "extract".toList r2).bind fun r3 => if boundR r3 then some () else none) <|>
    ((litCI "mvhr".toList s).bind fun r => if boundR r then some () else none) <|>
    ((litCI "mechanical".toList s).bind fun r1 => (ws1 r1).bind fun r2 =>
      (litCI "ventilation".toList r2).bind fun r3 => if boundR r3 then some () else none)
  else none

def mvSearch (text : Chars) : Option Unit := searchPosCtx mvAt none text

/-- `(?:air\s*pressure|AP4)[^0-9]*([0-9]+(?:\.[0-9]+)?)`. -/
def ap4At (s : Chars) : Option Chars :=
  (((litCI "air".toList s).bind fun r1 => litCI "pressure".toList (wsStar r1)) <|>
   (litCI "ap4".toList s)).bind fun r2 =>
    let (_, r3) := r2.span (fun c => !isDigitC c)
    (digits1 r3).bind fun (d, r4) =>
      match r4 with
      | '.' :: r5 =>
        (match digits1 r5 with
         | some (f, _) => some (d ++ '.' :: f)
         | none => some d)
      | _ => some d

/-- `double\s+glaz(ed|ing)(?:\s*[:\-]?\s*(yes|no))?`: `some (some t)`
when the yes/no group participates, `some none` for a bare match. -/
def dgAt (s : Chars) : Option (Option Chars) :=
  (litCI "double".toList s).bind fun r1 => (ws1 r1).bind fun r2 =>
  (litCI "glaz".toList r2).bind fun r3 =>
  ((litCI "ed".toList r3) <|> (litCI "ing".toList r3)).map fun r4 =>
    optSuffix ["yes".toList, "no".toList] r4

/-- `doors?\s*[:\-]?\s*(\d+)\s*\(uninsulated\)`. -/
def doorsAt (s : Chars) : Option Chars :=
  (litCI "door".toList s).bind fun r1 =>
    let r2 := match r1 with
      | c :: t => if c.toLower == 's' then t else c :: t
      | [] => []
    (digits1 (wsStar (optColonDash (wsStar r2)))).bind fun (d, r3) =>
      (litCI "(uninsulated)".toList (wsStar r3)).map fun _ => d

/-- `(\d+)\s+low[- ]energy\s+of\s+(\d+)`. -/
def lightsAt (s : Chars) : Option (Chars × Chars) :=
  (digits1 s).bind fun (d1, r1) =>
  (ws1 r1).bind fun r2 => (litCI "low".toList r2).bind fun r3 =>
  ((match r3 with
   | '-' :: t => some t
   | ' ' :: t => some t
   | _ => none : Option Chars)).bind fun r4 =>
  (litCI "energy".toList r4).bind fun r5 =>
  (ws1 r5).bind fun r6 => (litCI "of".toList r6).bind fun r7 =>
  (ws1 r7).bind fun r8 => (digits1 r8).map fun (d2, _) => (d1, d2)

/-- `(\d{2,3}\.\d)%` at one position, greedy (three digits first). -/
def effPctAt (s : Chars) : Option Chars :=
  (match s with
   | a :: b :: c :: '.' :: e :: '%' :: _ =>
     if isDigitC a && isDigitC b && isDigitC c && isDigitC e then
       some [a, b, c, '.', e]
     else none
   | _ => none) <|>
  (match s with
   | a :: b :: '.' :: e :: '%' :: _ =>
     if isDigitC a && isDigitC b && isDigitC e then some [a, b, '.', e] else none
   | _ => none)

/-- `main\s+heating\s+system.*?(\d{2,3}\.\d)%`. -/
def mhsAt (s : Chars) : Option Chars :=
  (litCI "main".toList s).bind fun r1 => (ws1 r1).bind fun r2 =>
  (litCI "heating".toList r2).bind fun r3 => (ws1 r3).bind fun r4 =>
  (litCI "system".toList r4).bind fun r5 => scanLine effPctAt r5

/-- `smart|zoned|trv|programm(er|able)|room\s*thermostat` at one
position, returning the rest of the input after the alternative. -/
def hcAlts (s : Chars) : Option Chars :=
  (litCI "smart".toList s) <|> (litCI "zoned".toList s) <|> (litCI "trv".toList s) <|>
  ((litCI "programm".toList s).bind fun r =>
    (litCI "er".toList r) <|> (litCI "able".toList r)) <|>
  ((litCI "room".toList s).bind fun r => litCI "thermostat".toList (wsStar r))

/-- `heating\s+controls?.*?(smart|zoned|trv|programm(er|able)|room\s*thermostat)`
at one position; yields `m.group(0)`, the whole matched text (the `s?`
is greedy, retried without the `s` only if the rest fails). -/
def hcAt (s : Chars) : Option Chars :=
  (litCI "heating".toList s).bind fun r1 => (ws1 r1).bind fun r2 =>
  (litCI "control".toList r2).bind fun r3 =>
    let tryFrom : Chars → Option Chars := fun r =>
      (scanLine hcAlts r).map fun rest => consumed s rest
    match r3 with
    | c :: t => if c.toLower == 's' then (tryFrom t) <|> (tryFrom r3) else tryFrom r3
    | [] => tryFrom r3

/-- `cylinder|combi|no\s+cylinder` at one position, returning the
matched text (`m.group(1)`). -/
def whAlts (s : Chars) : Option Chars :=
  ((litCI "cylinder".toList s).map fun r => consumed s r) <|>
  ((litCI "combi".toList s).map fun r => consumed s r) <|>
  (((litCI "no".toList s).bind fun r1 => (ws1 r1).bind fun r2 =>
    litCI "cylinder".toList r2).map fun r => consumed s r)

/-- `water\s+heating.*?(cylinder|combi|no\s+cylinder)`. -/
def whAt (s : Chars) : Option Chars :=
  (litCI "water".toList s).bind fun r1 => (ws1 r1).bind fun r2 =>
  (litCI "heating".toList r2).bind fun r3 => scanLine whAlts r3

/-- `\bsolar\s+pv\b|\bphotovoltaic\b`. -/
def pvAt (prev : Option Char) (s : Chars) : Option Unit :=
  if boundL prev then
    ((litCI "solar".toList s).bind fun r1 => (ws1 r1).bind fun r2 =>
      (litCI "pv".toList r2).bind fun r3 => if boundR r3 then some () else none) <|>
    ((litCI "photovoltaic".toList s).bind fun r => if boundR r then some () else none)
  else none

def pvSearch (text : Chars) : Option Unit := searchPosCtx pvAt none text

/-- The site-notes dictionary produced by `parse_site_notes`.  A
`none` models a Python `None`; fields the code sets to a plain Python
`bool` always carry `some`. -/
structure SiteNotes where
  smart_gas_meter : Option Bool := none
  smart_elec_meter : Option Bool := none
  loft_insulation_mm : Option Int := none
  loft_insulated : Option Bool := none
  cavity_wall_insulation : Option Bool := none
  internal_wall_insulation_mm : Option Int := none
  flat_roof_insulated : Option Bool := none
  mechanical_ventilation : Option Bool := none
  air_permeability_ap4 : Option ℚ := none
  double_glazed : Option Bool := none
  doors_uninsulated : Option Int := none
  low_energy_lights : Option Int := none
  lights_total : Option Int := none
  main_heat_eff_pct : Option ℚ := none
  heating_controls_smart : Option Bool := none
  hot_water_type : Option Chars := none
  pv_present : Option Bool := none
deriving DecidableEq

/-- `parse_site_notes` (src/app.py lines 160-224). -/
def parse_site_notes (text : Chars) : SiteNotes :=
  let loft_mm : Option Int :=
    match searchPos loftAt text with
    | some (some d) => to_int (some d)
    | _ => none
  { smart_gas_meter := to_bool (searchPos sgmAt text)
    smart_elec_meter := to_bool (searchPos semAt text)
    loft_insulation_mm := loft_mm
    loft_insulated := some (match loft_mm with
      | some n => decide (0 < n)
      | none => false)
    cavity_wall_insulation := to_bool (searchPos cavAt text)
    internal_wall_insulation_mm :=
      (match searchPos iwiAt text with
       | some (some d) => to_int (some d)
       | _ => none)
    flat_roof_insulated := to_bool (searchPos friAt text)
    mechanical_ventilation := some (mvSearch text).isSome
    air_permeability_ap4 :=
      (match searchPos ap4At text with
       | some cap => to_float (some cap)
       | none => none)
    double_glazed :=
      (match searchPos dgAt text with
       | some (some tok) => to_bool (some tok)
       | some none => some true
       | none => some false)
    doors_uninsulated :=
      (match searchPos doorsAt text with
       | some d => to_int (some d)
       | none => none)
    low_energy_lights :=
      (match searchPos lightsAt text with
       | some (d1, _) => to_int (some d1)
       | none => none)
    lights_total :=
      (match searchPos lightsAt text with
       | some (_, d2) => to_int (some d2)
       | none => none)
    main_heat_eff_pct :=
      (match searchPos mhsAt text with
       | some cap => to_float (some cap)
       | none => none)
    heating_controls_smart := some (match searchPos hcAt text with
      | some g0 =>
        occursIn "smart".toList (lowerL g0) || occursIn "zoned".toList (lowerL g0) ||
          occursIn "trv".toList (lowerL g0)
      | none => false)
    hot_water_type := (searchPos whAt text).map lowerL
    pv_present := some (pvSearch text).isSome }

/-! ## `compare_site_notes` (src/app.py lines 226-294) and `delta`

QA findings are modelled by their level and field; the human-readable
message strings (some built with `f"…:.2f"` float formatting) are
presentation-only and carry no further data. -/

inductive Level
  | error
  | warning
  | info
deriving DecidableEq

structure Finding where
  level : Level
  field : String
deriving DecidableEq

/-- Python truthiness of an optional bool (`None` and `False` falsy). -/
def truthyB : Option Bool → Bool
  | some true => true
  | _ => false

/-- Python truthiness of an optional int (`None` and `0` falsy). -/
def truthyI : Option Int → Bool
  | some n => n != 0
  | none => false

/-- Python truthiness of an optional float (`None` and `0.0` falsy). -/
def truthyQ : Option ℚ → Bool
  | some q => q != 0
  | none => false

/-- `delta(a, b)` of src/app.py lines 252-254 and 370: `None` if
either operand is `None`, else `b - a`. -/
def delta {α : Type} [Sub α] : Option α → Option α → Option α
  | some a, some b => some (b - a)
  | _, _ => none

/-- One step of QA rule 1 (src/app.py lines 245-249): `is True` /
`is False` identity tests on the pre/post values. -/
def check1 (a b : Option Bool) (label : String) : List Finding :=
  if a = some true ∧ b = some false then [⟨.error, label⟩]
  else if a = some false ∧ b = some true then [⟨.info, label⟩]
  else []

/-- The field/label table of QA rule 1 (src/app.py lines 237-244). -/
def boolFields : List ((SiteNotes → Option Bool) × String) :=
  [(SiteNotes.smart_gas_meter, "Smart gas meter"),
   (SiteNotes.smart_elec_meter, "Smart electric meter"),
   (SiteNotes.mechanical_ventilation, "Mechanical ventilation"),
   (SiteNotes.double_glazed, "Double glazing"),
   (SiteNotes.pv_present, "Solar PV"),
   (SiteNotes.flat_roof_insulated, "Flat roof insulation")]

/-- QA rule 1: the boolean consistency loop. -/
def boolChecks (pre post : SiteNotes) : List Finding :=
  boolFields.flatMap fun fl => check1 (fl.1 pre) (fl.1 post) fl.2

/-- QA rule 2 (src/app.py lines 256-263): AP4 delta sanity. -/
def ap4Checks (pre post : SiteNotes) : List Finding :=
  match delta pre.air_permeability_ap4 post.air_permeability_ap4 with
  | none => []
  | some d =>
    if (1 : ℚ) / 2 < d then [⟨.warning, "Air permeability (AP4)"⟩]
    else if d < -2 then [⟨.info, "Air permeability (AP4)"⟩]
    else []

/-- QA rules 3-4 (src/app.py lines 266-271): lighting consistency
(truthiness guards, then value comparisons). -/
def lightingChecks (pre post : SiteNotes) : List Finding :=
  (match pre.lights_total, post.lights_total with
   | some a, some b =>
     if a ≠ 0 ∧ b ≠ 0 ∧ a ≠ b then [⟨.warning, "Lighting totals"⟩] else []
   | _, _ => []) ++
  (match pre.low_energy_lights, post.low_energy_lights with
   | some a, some b =>
     if a ≠ 0 ∧ b ≠ 0 ∧ b < a then [⟨.warning, "Low-energy lighting"⟩] else []
   | _, _ => [])

/-- Doors sanity (src/app.py lines 274-277). -/
def doorsChecks (pre post : SiteNotes) : List Finding :=
  match pre.doors_uninsulated, post.doors_uninsulated with
  | some a, some b => if b < a - 2 then [⟨.info, "Doors"⟩] else []
  | _, _ => []

/-- Loft-insulation coherence (src/app.py lines 280-282). -/
def loftChecks (pre post : SiteNotes) : List Finding :=
  match pre.loft_insulation_mm, post.loft_insulation_mm with
  | some a, some b => if b < a then [⟨.warning, "Loft insulation"⟩] else []
  | _, _ => []

/-- QA rule 6, controls coherence (src/app.py lines 285-286):
truthiness tests, not identity tests. -/
def controlsChecks (post : SiteNotes) : List Finding :=
  if truthyB post.heating_controls_smart && !truthyQ post.main_heat_eff_pct then
    [⟨.warning, "Heating controls"⟩]
  else []

/-- PV coherence (src/app.py lines 289-292). -/
def pvChecks (pre post : SiteNotes) : List Finding :=
  (if truthyB post.pv_present && post.low_energy_lights == none then
    [⟨.info, "Solar PV"⟩]
  else []) ++
  (if truthyB pre.pv_present && !truthyB post.pv_present then
    [⟨.error, "Solar PV"⟩]
  else [])

/-- `compare_site_notes`: the QA findings, in emission order. -/
def compare_site_notes (pre post : SiteNotes) : List Finding :=
  boolChecks pre post ++ ap4Checks pre post ++ lightingChecks pre post ++
    doorsChecks pre post ++ loftChecks pre post ++ controlsChecks post ++
    pvChecks pre post

/-- The summary numbers the `/compare` diff subtracts (src/app.py
lines 370-374). -/
structure SummaryNums where
  sap_current : Option Int := none
  ei_current : Option Int := none
  fuel_bill : Option ℚ := none

structure DiffNums where
  sap_change : Option Int
  ei_change : Option Int
  fuel_bill_change : Option ℚ

/-- The numeric part of the `/compare` diff (src/app.py lines 370-374). -/
def compute_diff (pre post : SummaryNums) : DiffNums :=
  { sap_change := delta pre.sap_current post.sap_current
    ei_change := delta pre.ei_current post.ei_current
    fuel_bill_change := delta pre.fuel_bill post.fuel_bill }

/-- Count of the findings carrying a given field label and level. -/
def countFindings (l : List Finding) (label : String) (lv : Level) : Nat :=
  l.countP fun f => decide (f.field = label ∧ f.level = lv)

/-! ## Helper lemmas -/

theorem mem_collapseAux {c : Char} :
    ∀ {l : Chars} {b : Bool}, c ∈ collapseAux b l → c = ' ' ∨ isWsC c = false := by
  intro l
  induction l with
  | nil => intro b h; simp [collapseAux] at h
  | cons a t ih =>
    intro b h
    simp only [collapseAux] at h
    split_ifs at h with ha hb
    · exact ih h
    · rcases List.mem_cons.mp h with rfl | h'
      · exact Or.inl rfl
      · exact ih h'
    · rcases List.mem_cons.mp h with rfl | h'
      · exact Or.inr (by simpa using ha)
      · exact ih h'

theorem headNotWs_collapseAux_true : ∀ l : Chars, headNotWs (collapseAux true l) = true := by
  intro l
  induction l with
  | nil => rfl
  | cons a t ih =>
    simp only [collapseAux]
    split_ifs with ha
    · exact ih
    · simp [headNotWs, ha]

theorem noTwoWs_cons_of {c : Char} {l : Chars}
    (h1 : isWsC c = false ∨ headNotWs l = true) (h2 : noTwoWs l = true) :
    noTwoWs (c :: l) = true := by
  cases l with
  | nil => rfl
  | cons d t =>
    simp only [noTwoWs, Bool.and_eq_true, Bool.not_eq_true']
    refine ⟨?_, h2⟩
    rcases h1 with h | h
    · simp [h]
    · simp only [headNotWs, Bool.not_eq_true'] at h
      simp [h]

theorem noTwoWs_tail {c : Char} {l : Chars} (h : noTwoWs (c :: l) = true) :
    noTwoWs l = true := by
  cases l with
  | nil => rfl
  | cons d t =>
    simp only [noTwoWs, Bool.and_eq_true] at h
    exact h.2

theorem noTwoWs_head_pair {c d : Char} {t : Chars} (h : noTwoWs (c :: d :: t) = true) :
    (isWsC c && isWsC d) = false := by
  simp only [noTwoWs, Bool.and_eq_true, Bool.not_eq_true'] at h
  exact h.1

theorem noTwoWs_collapseAux : ∀ (l : Chars) (b : Bool), noTwoWs (collapseAux b l) = true := by
  intro l
  induction l with
  | nil => intro b; rfl
  | cons a t ih =>
    intro b
    simp only [collapseAux]
    split_ifs with ha hb
    · exact ih true
    · exact noTwoWs_cons_of (Or.inr (headNotWs_collapseAux_true t)) (ih true)
    · exact noTwoWs_cons_of (Or.inl (by simpa using ha)) (ih false)

theorem headNotWs_dropWhile (l : Chars) : headNotWs (l.dropWhile isWsC) = true := by
  induction l with
  | nil => rfl
  | cons a t ih =>
    rw [List.dropWhile_cons]
    split_ifs with ha
    · exact ih
    · simp [headNotWs, ha]

theorem noTwoWs_dropWhile {l : Chars} (h : noTwoWs l = true) :
    noTwoWs (l.dropWhile isWsC) = true := by
  induction l with
  | nil => rfl
  | cons a t ih =>
    rw [List.dropWhile_cons]
    split_ifs with ha
    · exact ih (noTwoWs_tail h)
    · exact h

theorem noTwoWs_append {l1 l2 : Chars} (h1 : noTwoWs l1 = true) (h2 : noTwoWs l2 = true)
    (hb : ∀ x y, l1.getLast? = some x → l2.head? = some y → (isWsC x && isWsC y) = false) :
    noTwoWs (l1 ++ l2) = true := by
  induction l1 with
  | nil => simpa using h2
  | cons a t ih =>
    cases t with
    | nil =>
      cases l2 with
      | nil => rfl
      | cons y t2 =>
        have hpair := hb a y rfl rfl
        simp only [List.cons_append, List.nil_append, noTwoWs, Bool.and_eq_true,
          Bool.not_eq_true']
        exact ⟨hpair, h2⟩
    | cons b t' =>
      have hrec := ih (noTwoWs_tail h1)
        (fun x y hx hy => hb x y (by rw [List.getLast?_cons_cons]; exact hx) hy)
      rw [List.cons_append]
      have hp := noTwoWs_head_pair h1
      by_cases hwa : isWsC a = true
      · refine noTwoWs_cons_of (Or.inr ?_) hrec
        rw [hwa] at hp
        simpa [List.cons_append, headNotWs] using hp
      · exact noTwoWs_cons_of (Or.inl (by simpa using hwa)) hrec

theorem noTwoWs_reverse {l : Chars} (h : noTwoWs l = true) : noTwoWs l.reverse = true := by
  induction l with
  | nil => rfl
  | cons a t ih =>
    rw [List.reverse_cons]
    refine noTwoWs_append (ih (noTwoWs_tail h)) rfl ?_
    intro x y hx hy
    rw [List.getLast?_reverse] at hx
    simp only [List.head?_cons, Option.some.injEq] at hy
    subst hy
    cases t with
    | nil => simp at hx
    | cons d t' =>
      simp only [List.head?_cons, Option.some.injEq] at hx
      subst hx
      have hp := noTwoWs_head_pair h
      rwa [Bool.and_comm] at hp

theorem mem_pyStrip {c : Char} {l : Chars} (h : c ∈ pyStrip l) : c ∈ l := by
  unfold pyStrip at h
  rw [List.mem_reverse] at h
  have h2 := (List.dropWhile_suffix _).sublist.subset h
  rw [List.mem_reverse] at h2
  exact (List.dropWhile_suffix _).sublist.subset h2

theorem noTwoWs_pyStrip {l : Chars} (h : noTwoWs l = true) : noTwoWs (pyStrip l) = true :=
  noTwoWs_reverse (noTwoWs_dropWhile (noTwoWs_reverse (noTwoWs_dropWhile h)))

theorem lastNotWs_pyStrip (l : Chars) : lastNotWs (pyStrip l) = true := by
  unfold lastNotWs pyStrip
  rw [List.reverse_reverse]
  exact headNotWs_dropWhile _

theorem headNotWs_pyStrip (l : Chars) : headNotWs (pyStrip l) = true := by
  unfold pyStrip
  have hpre : ((l.dropWhile isWsC).reverse.dropWhile isWsC).reverse <+: l.dropWhile isWsC := by
    refine ⟨((l.dropWhile isWsC).reverse.takeWhile isWsC).reverse, ?_⟩
    rw [← List.reverse_append, List.takeWhile_append_dropWhile, List.reverse_reverse]
  cases hcase : ((l.dropWhile isWsC).reverse.dropWhile isWsC).reverse with
  | nil => rfl
  | cons c t =>
    obtain ⟨u, hu⟩ := hpre
    rw [hcase] at hu
    have hA2 : headNotWs (l.dropWhile isWsC) = true := headNotWs_dropWhile l
    rw [← hu] at hA2
    simpa [headNotWs] using hA2

theorem norm_ws_ws_is_space {c : Char} {l : Chars} (h : c ∈ norm_ws l)
    (hws : isWsC c = true) : c = ' ' := by
  unfold norm_ws at h
  rcases mem_collapseAux (mem_pyStrip h) with h' | h'
  · exact h'
  · exact absurd hws (by simp [h'])

theorem norm_ws_breakFree (l : Chars) : breakFree (norm_ws l) := by
  intro c hc
  constructor <;> rintro rfl <;>
    exact absurd (norm_ws_ws_is_space hc (by decide)) (by decide)

theorem norm_ws_noTwoWs (l : Chars) : noTwoWs (norm_ws l) = true :=
  noTwoWs_pyStrip (noTwoWs_collapseAux l false)

theorem norm_ws_headNotWs (l : Chars) : headNotWs (norm_ws l) = true :=
  headNotWs_pyStrip _

theorem norm_ws_lastNotWs (l : Chars) : lastNotWs (norm_ws l) = true :=
  lastNotWs_pyStrip _

theorem collapseAux_fix {l : Chars} (hsp : ∀ c ∈ l, isWsC c = true → c = ' ')
    (hnt : noTwoWs l = true) :
    collapseAux false l = l ∧ (headNotWs l = true → collapseAux true l = l) := by
  induction l with
  | nil => exact ⟨rfl, fun _ => rfl⟩
  | cons a t ih =>
    have hsp' : ∀ c ∈ t, isWsC c = true → c = ' ' :=
      fun c hc => hsp c (List.mem_cons_of_mem a hc)
    obtain ⟨ih1, ih2⟩ := ih hsp' (noTwoWs_tail hnt)
    by_cases hwa : isWsC a = true
    · have ha : a = ' ' := hsp a (List.mem_cons_self a t) hwa
      have hth : headNotWs t = true := by
        cases t with
        | nil => rfl
        | cons d t' =>
          have hp := noTwoWs_head_pair hnt
          rw [hwa] at hp
          simpa [headNotWs] using hp
      constructor
      · simp only [collapseAux, if_pos hwa, if_neg (by simp : ¬(false = true))]
        rw [ih2 hth, ha]
      · intro hhead
        rw [headNotWs, hwa] at hhead
        cases hhead
    · constructor
      · simp only [collapseAux, if_neg hwa]
        rw [ih1]
      · intro _
        simp only [collapseAux, if_neg hwa]
        rw [ih1]

theorem pyStrip_fix {l : Chars} (hh : headNotWs l = true) (hl : lastNotWs l = true) :
    pyStrip l = l := by
  unfold pyStrip
  have h1 : l.dropWhile isWsC = l := by
    cases l with
    | nil => rfl
    | cons a t =>
      rw [List.dropWhile_cons, if_neg]
      simpa [headNotWs] using hh
  rw [h1]
  have h2 : l.reverse.dropWhile isWsC = l.reverse := by
    cases hrev : l.reverse with
    | nil => rfl
    | cons a t =>
      rw [List.dropWhile_cons, if_neg]
      unfold lastNotWs at hl
      rw [hrev] at hl
      simpa [headNotWs] using hl
  rw [h2, List.reverse_reverse]

theorem norm_ws_fix {l : Chars} (hsp : ∀ c ∈ l, isWsC c = true → c = ' ')
    (hnt : noTwoWs l = true) (hh : headNotWs l = true) (hl : lastNotWs l = true) :
    norm_ws l = l := by
  unfold norm_ws
  rw [(collapseAux_fix hsp hnt).1, pyStrip_fix hh hl]

theorem toLf_id {l : Chars} (h : ∀ c ∈ l, c ≠ '\r') : toLf l = l := by
  induction l with
  | nil => rfl
  | cons a t ih =>
    have ha := h a (List.mem_cons_self a t)
    have ht := ih fun c hc => h c (List.mem_cons_of_mem a hc)
    cases t with
    | nil => cases a; simp_all [toLf]
    | cons b t' => cases a; simp_all [toLf]

theorem mem_joinNl {c : Char} :
    ∀ {L : List Chars}, c ∈ joinNl L → c = '\n' ∨ ∃ l ∈ L, c ∈ l := by
  intro L
  induction L with
  | nil => intro h; cases h
  | cons l L' ih =>
    intro h
    cases L' with
    | nil => exact Or.inr ⟨l, List.mem_cons_self _ _, h⟩
    | cons l2 ls =>
      have h' : c ∈ l ++ '\n' :: joinNl (l2 :: ls) := h
      rcases List.mem_append.mp h' with h2 | h2
      · exact Or.inr ⟨l, List.mem_cons_self _ _, h2⟩
      · rcases List.mem_cons.mp h2 with rfl | h3
        · exact Or.inl rfl
        · rcases ih h3 with h4 | ⟨x, hx, hcx⟩
          · exact Or.inl h4
          · exact Or.inr ⟨x, List.mem_cons_of_mem _ hx, hcx⟩

theorem splitAux_nlFree {l : Chars} (hb : ∀ c ∈ l, c ≠ '\n') :
    ∀ acc : Chars,
      splitAux acc l = if acc.isEmpty ∧ l.isEmpty then [] else [acc.reverse ++ l] := by
  induction l with
  | nil =>
    intro acc
    by_cases h : acc.isEmpty <;> simp [splitAux, h]
  | cons a t ih =>
    intro acc
    have ha := hb a (List.mem_cons_self a t)
    have hb' : ∀ c ∈ t, c ≠ '\n' := fun c hc => hb c (List.mem_cons_of_mem a hc)
    rw [show splitAux acc (a :: t) = splitAux (a :: acc) t by
      cases a; simp_all [splitAux]]
    rw [ih hb' (a :: acc)]
    simp only [List.isEmpty_cons, Bool.false_eq_true, false_and, if_false]
    rw [List.reverse_cons, List.append_assoc]
    simp

theorem splitAux_append_newline {l : Chars} (hb : ∀ c ∈ l, c ≠ '\n') :
    ∀ acc rest : Chars,
      splitAux acc (l ++ '\n' :: rest) = (acc.reverse ++ l) :: splitAux [] rest := by
  induction l with
  | nil =>
    intro acc rest
    simp [splitAux]
  | cons a t ih =>
    intro acc rest
    have ha := hb a (List.mem_cons_self a t)
    have hb' : ∀ c ∈ t, c ≠ '\n' := fun c hc => hb c (List.mem_cons_of_mem a hc)
    rw [List.cons_append]
    rw [show splitAux acc (a :: (t ++ '\n' :: rest)) = splitAux (a :: acc) (t ++ '\n' :: rest) by
      cases a; simp_all [splitAux]]
    rw [ih hb' (a :: acc) rest]
    rw [List.reverse_cons, List.append_assoc]
    simp

theorem splitAux_joinNl {L : List Chars}
    (hL : ∀ l ∈ L, (∀ c ∈ l, c ≠ '\n') ∧ l ≠ []) : splitAux [] (joinNl L) = L := by
  induction L with
  | nil => rfl
  | cons l L' ih =>
    obtain ⟨hbf, hne⟩ := hL l (List.mem_cons_self _ _)
    have hL' := fun x hx => hL x (List.mem_cons_of_mem l hx)
    cases L' with
    | nil =>
      show splitAux [] l = [l]
      rw [splitAux_nlFree hbf []]
      simp [hne]
    | cons l2 ls =>
      show splitAux [] (l ++ '\n' :: joinNl (l2 :: ls)) = l :: l2 :: ls
      rw [splitAux_append_newline hbf [] (joinNl (l2 :: ls))]
      simp only [List.reverse_nil, List.nil_append]
      rw [ih hL']

theorem splitLinesPy_joinNl {L : List Chars}
    (hL : ∀ l ∈ L, breakFree l ∧ l ≠ []) : splitLinesPy (joinNl L) = L := by
  have hr : ∀ c ∈ joinNl L, c ≠ '\r' := by
    intro c hc
    rcases mem_joinNl hc with rfl | ⟨x, hx, hcx⟩
    · decide
    · exact ((hL x hx).1 c hcx).2
  unfold splitLinesPy
  rw [toLf_id hr]
  exact splitAux_joinNl fun l hl =>
    ⟨fun c hc => ((hL l hl).1 c hc).1, (hL l hl).2⟩

theorem headNotWs_joinNl {L : List Chars}
    (hL : ∀ l ∈ L, l ≠ [] ∧ headNotWs l = true) : headNotWs (joinNl L) = true := by
  cases L with
  | nil => rfl
  | cons l L' =>
    obtain ⟨hne, hh⟩ := hL l (List.mem_cons_self _ _)
    cases L' with
    | nil => exact hh
    | cons l2 ls =>
      show headNotWs (l ++ '\n' :: joinNl (l2 :: ls)) = true
      cases l with
      | nil => exact absurd rfl hne
      | cons c t => simpa [headNotWs] using hh

theorem noTwoWs_joinNl {L : List Chars}
    (hL : ∀ l ∈ L, noTwoWs l = true ∧ headNotWs l = true ∧ lastNotWs l = true ∧ l ≠ []) :
    noTwoWs (joinNl L) = true := by
  induction L with
  | nil => rfl
  | cons l L' ih =>
    obtain ⟨hnt, hh, hl, hne⟩ := hL l (List.mem_cons_self _ _)
    have hL' := fun x hx => hL x (List.mem_cons_of_mem l hx)
    cases L' with
    | nil => exact hnt
    | cons l2 ls =>
      show noTwoWs (l ++ '\n' :: joinNl (l2 :: ls)) = true
      refine noTwoWs_append hnt ?_ ?_
      · refine noTwoWs_cons_of (Or.inr ?_) (ih hL')
        exact headNotWs_joinNl (fun x hx => ⟨(hL' x hx).2.2.2, (hL' x hx).2.1⟩)
      · intro x y hx hy
        simp only [List.head?_cons, Option.some.injEq] at hy
        subst hy
        unfold lastNotWs at hl
        have hxws : isWsC x = false := by
          rw [← List.head?_reverse] at hx
          cases hrev : l.reverse with
          | nil => rw [hrev] at hx; cases hx
          | cons c t =>
            rw [hrev] at hx
            simp only [List.head?_cons, Option.some.injEq] at hx
            subst hx
            rw [hrev] at hl
            simpa [headNotWs] using hl
        simp [hxws]

theorem noTwoWs_double_space_false (s t : Chars) :
    noTwoWs (s ++ ' ' :: ' ' :: t) = false := by
  induction s with
  | nil => rfl
  | cons a s' ih =>
    rw [List.cons_append]
    cases hs : s' ++ ' ' :: ' ' :: t with
    | nil => simp at hs
    | cons d t' =>
      rw [hs] at ih
      simp [noTwoWs, ih]

theorem noTwoWs_no_double_space {l : Chars} (h : noTwoWs l = true) :
    ¬ ([' ', ' '] <:+: l) := by
  rintro ⟨s, t, hst⟩
  have hf := noTwoWs_double_space_false s t
  have hst' : s ++ ' ' :: ' ' :: t = l := by simpa using hst
  rw [hst', h] at hf
  cases hf

theorem countFindings_append (l1 l2 : List Finding) (label : String) (lv : Level) :
    countFindings (l1 ++ l2) label lv = countFindings l1 label lv + countFindings l2 label lv :=
  List.countP_append _ _ _

theorem countFindings_check1_ne (a b : Option Bool) (L label : String) (lv : Level)
    (h : label ≠ L) : countFindings (check1 a b L) label lv = 0 := by
  unfold check1 countFindings
  split_ifs <;> simp [List.countP_cons] <;> exact fun hh => (h hh.symm).elim

theorem countFindings_check1_error (a b : Option Bool) (L : String) :
    countFindings (check1 a b L) L Level.error =
      if a = some true ∧ b = some false then 1 else 0 := by
  unfold check1 countFindings
  split_ifs with hc1 hc2 <;> simp [List.countP_cons]

theorem countFindings_check1_info (a b : Option Bool) (L : String) :
    countFindings (check1 a b L) L Level.info =
      if a = some false ∧ b = some true then 1 else 0 := by
  unfold check1 countFindings
  split_ifs with hc1 hc2 <;> simp_all [List.countP_cons]

theorem countFindings_check1_warning (a b : Option Bool) (L label : String) :
    countFindings (check1 a b L) label Level.warning = 0 := by
  unfold check1 countFindings
  split_ifs <;> simp [List.countP_cons]

theorem truthyB_eq_true_iff (a : Option Bool) : truthyB a = true ↔ a = some true := by
  cases a with
  | none => simp [truthyB]
  | some b => cases b <;> simp [truthyB]

theorem truthyQ_eq_false_iff (a : Option ℚ) :
    truthyQ a = false ↔ a = none ∨ a = some 0 := by
  cases a <;> simp [truthyQ]

theorem warning_not_mem_check1 (a b : Option Bool) (L label : String) :
    (⟨Level.warning, label⟩ : Finding) ∉ check1 a b L := by
  unfold check1
  split_ifs <;> simp

theorem hc_not_mem_boolChecks (pre post : SiteNotes) :
    (⟨Level.warning, "Heating controls"⟩ : Finding) ∉ boolChecks pre post := by
  intro h
  obtain ⟨fl, -, hmem⟩ := List.mem_flatMap.mp h
  exact warning_not_mem_check1 _ _ _ _ hmem

theorem hc_not_mem_ap4Checks (pre post : SiteNotes) :
    (⟨Level.warning, "Heating controls"⟩ : Finding) ∉ ap4Checks pre post := by
  unfold ap4Checks
  split
  · simp
  · split_ifs <;> simp

theorem hc_not_mem_lightingChecks (pre post : SiteNotes) :
    (⟨Level.warning, "Heating controls"⟩ : Finding) ∉ lightingChecks pre post := by
  unfold lightingChecks
  intro h
  rcases List.mem_append.mp h with h' | h' <;>
    · revert h'
      split
      · split_ifs <;> simp
      · simp

theorem hc_not_mem_doorsChecks (pre post : SiteNotes) :
    (⟨Level.warning, "Heating controls"⟩ : Finding) ∉ doorsChecks pre post := by
  unfold doorsChecks
  split
  · split_ifs <;> simp
  · simp

theorem hc_not_mem_loftChecks (pre post : SiteNotes) :
    (⟨Level.warning, "Heating controls"⟩ : Finding) ∉ loftChecks pre post := by
  unfold loftChecks
  split
  · split_ifs <;> simp
  · simp

theorem hc_not_mem_pvChecks (pre post : SiteNotes) :
    (⟨Level.warning, "Heating controls"⟩ : Finding) ∉ pvChecks pre post := by
  unfold pvChecks
  intro h
  rcases List.mem_append.mp h with h' | h' <;> revert h' <;> split_ifs <;> simp

theorem hc_mem_controlsChecks_iff (post : SiteNotes) :
    (⟨Level.warning, "Heating controls"⟩ : Finding) ∈ controlsChecks post ↔
      post.heating_controls_smart = some true ∧
        (post.main_heat_eff_pct = none ∨ post.main_heat_eff_pct = some 0) := by
  unfold controlsChecks
  split_ifs with hc
  · simp only [List.mem_singleton, true_iff]
    rw [Bool.and_eq_true] at hc
    obtain ⟨hb, hq⟩ := hc
    exact ⟨(truthyB_eq_true_iff _).mp hb,
      (truthyQ_eq_false_iff _).mp (by simpa using hq)⟩
  · simp only [List.not_mem_nil, false_iff]
    rintro ⟨hb, hq⟩
    exact hc (by
      rw [Bool.and_eq_true, (truthyB_eq_true_iff _), Bool.not_eq_true',
        (truthyQ_eq_false_iff _)]
      exact ⟨hb, hq⟩)

theorem parse_recs_keys_aux (text : Chars) (names : List Chars) :
    ((names.filterMap fun name =>
        (recCapture name text).map fun cap => (name, titlePy (pyStrip cap))).map
      Prod.fst) = names.filter fun n => (recCapture n text).isSome := by
  induction names with
  | nil => rfl
  | cons n t ih =>
    simp only [List.filterMap_cons, List.filter_cons]
    cases h : recCapture n text with
    | none => simpa [h] using ih
    | some cap => simp [h, ih]

/-! ## Claim theorems -/

/-- C9: the status normalizer is idempotent on the four canonical
statuses: normalizing an already-canonical status returns it
unchanged. -/
theorem C9_choose_idempotent_on_canonical :
    choose (some "Already Installed".toList) = "Already Installed".toList ∧
    choose (some "Not Applicable".toList) = "Not Applicable".toList ∧
    choose (some "Sap Increase Too Small".toList) = "Sap Increase Too Small".toList ∧
    choose (some "Recommended".toList) = "Recommended".toList := by
  decide

/-- C10: when the (lowercased) raw status contains several canonical
phrases, the normalizer returns the first one in `STAT_ORDER` order
(already installed, not applicable, sap increase too small,
recommended), title-cased; an empty or null raw value yields `""`. -/
theorem C10_first_canonical_wins (raw : Chars) :
    (occursIn "already installed".toList (lowerL raw) = true →
      choose (some raw) = "Already Installed".toList) ∧
    (occursIn "already installed".toList (lowerL raw) = false →
      occursIn "not applicable".toList (lowerL raw) = true →
      choose (some raw) = "Not Applicable".toList) ∧
    (occursIn "already installed".toList (lowerL raw) = false →
      occursIn "not applicable".toList (lowerL raw) = false →
      occursIn "sap increase too small".toList (lowerL raw) = true →
      choose (some raw) = "Sap Increase Too Small".toList) ∧
    (occursIn "already installed".toList (lowerL raw) = false →
      occursIn "not applicable".toList (lowerL raw) = false →
      occursIn "sap increase too small".toList (lowerL raw) = false →
      occursIn "recommended".toList (lowerL raw) = true →
      choose (some raw) = "Recommended".toList) ∧
    choose (some []) = [] ∧ choose none = [] := by
  refine ⟨fun h0 => ?_, fun h0 h1 => ?_, fun h0 h1 h2 => ?_, fun h0 h1 h2 h3 => ?_,
    by decide, by decide⟩
  all_goals unfold choose
  all_goals simp only [STAT_ORDER, Option.getD_some]
  · rw [List.find?_cons_of_pos _ (by simpa using h0)]
    show titlePy "already installed".toList = _
    decide
  · rw [List.find?_cons_of_neg _ (by simpa using h0),
      List.find?_cons_of_pos _ (by simpa using h1)]
    show titlePy "not applicable".toList = _
    decide
  · rw [List.find?_cons_of_neg _ (by simpa using h0),
      List.find?_cons_of_neg _ (by simpa using h1),
      List.find?_cons_of_pos _ (by simpa using h2)]
    show titlePy "sap increase too small".toList = _
    decide
  · rw [List.find?_cons_of_neg _ (by simpa using h0),
      List.find?_cons_of_neg _ (by simpa using h1),
      List.find?_cons_of_neg _ (by simpa using h2),
      List.find?_cons_of_pos _ (by simpa using h3)]
    show titlePy "recommended".toList = _
    decide

/-- Witness for C10 at a raw status containing two canonical phrases:
`not applicable` (position 2 in the order) beats `recommended`
(position 4). -/
theorem C10_first_canonical_wins_witness :
    occursIn "already installed".toList (lowerL "recommended but Not Applicable".toList) =
        false ∧
    occursIn "not applicable".toList (lowerL "recommended but Not Applicable".toList) =
        true ∧
    choose (some "recommended but Not Applicable".toList) = "Not Applicable".toList :=
  ⟨by decide, by decide,
    (C10_first_canonical_wins "recommended but Not Applicable".toList).2.1
      (by decide) (by decide)⟩

/-- C2 fails on the code: for the text `Loft insulation (Uninsulated)`
the extraction-plus-normalization pipeline does *not* produce
`Recommended` for `Loft insulation`. -/
theorem C2_counterexample :
    recStatus "Loft insulation (Uninsulated)".toList "Loft insulation".toList ≠
      "Recommended".toList := by
  decide

/-- C2 amended: the pipeline passes the descriptor through: the
captured status is title-cased by the extractor and, containing no
canonical phrase, is returned unchanged (stripped) by the normalizer,
giving `Uninsulated`.  No descriptor heuristic exists in the code. -/
theorem C2_amended_descriptor_passthrough :
    recStatus "Loft insulation (Uninsulated)".toList "Loft insulation".toList =
      "Uninsulated".toList := by
  decide

/-- C1 fails on the code: on empty input the recommendation extractor
returns an *empty* map, not one with the 8 fixed keys. -/
theorem C1_counterexample :
    parse_recommendations [] = [] ∧ REC_NAMES.length = 8 := by
  decide

/-- C1 amended: the extractor's keys are exactly the measure names
(of the 8 fixed ones, in their fixed order) whose pattern
`name\s*\(([^)]+)\)` matches the text; a matched name maps to the
title-cased, stripped capture, and unmatched names are absent. -/
theorem C1_keys_are_matched_names (text : Chars) :
    ((parse_recommendations text).map Prod.fst =
      REC_NAMES.filter fun n => (recCapture n text).isSome) ∧
    ∀ n s, (n, s) ∈ parse_recommendations text →
      ∃ cap, recCapture n text = some cap ∧ s = titlePy (pyStrip cap) := by
  constructor
  · exact parse_recs_keys_aux text REC_NAMES
  · intro n s hmem
    unfold parse_recommendations at hmem
    obtain ⟨name, -, hf⟩ := List.mem_filterMap.mp hmem
    cases h : recCapture name text with
    | none => rw [h] at hf; exact Option.noConfusion hf
    | some cap =>
      rw [h] at hf
      simp only [Option.map_some', Option.some.injEq, Prod.mk.injEq] at hf
      obtain ⟨rfl, rfl⟩ := hf
      exact ⟨cap, h, rfl⟩

/-- Witness for C1 amended at the text `Loft insulation (Uninsulated)`. -/
theorem C1_keys_are_matched_names_witness :
    ("Loft insulation".toList, "Uninsulated".toList) ∈
        parse_recommendations "Loft insulation (Uninsulated)".toList ∧
    ∃ cap,
      recCapture "Loft insulation".toList "Loft insulation (Uninsulated)".toList =
          some cap ∧
        "Uninsulated".toList = titlePy (pyStrip cap) :=
  ⟨by decide,
    (C1_keys_are_matched_names "Loft insulation (Uninsulated)".toList).2 _ _ (by decide)⟩

/-- C4: `delta(a, b)` is null exactly when an operand is null and is
exactly `b − a` otherwise, at both numeric types the program
subtracts (ints for SAP/EI, floats for fuel bill, areas and AP4); the
diff engine computes its three summary changes with this `delta`. -/
theorem C4_delta_null_or_exact :
    (∀ a b : Option ℚ,
      (delta a b = none ↔ a = none ∨ b = none) ∧
      ∀ x y : ℚ, a = some x → b = some y → delta a b = some (y - x)) ∧
    (∀ a b : Option Int,
      (delta a b = none ↔ a = none ∨ b = none) ∧
      ∀ x y : Int, a = some x → b = some y → delta a b = some (y - x)) ∧
    (∀ pre post : SummaryNums,
      (compute_diff pre post).sap_change = delta pre.sap_current post.sap_current ∧
      (compute_diff pre post).ei_change = delta pre.ei_current post.ei_current ∧
      (compute_diff pre post).fuel_bill_change = delta pre.fuel_bill post.fuel_bill) := by
  refine ⟨fun a b => ?_, fun a b => ?_, fun pre post => ⟨rfl, rfl, rfl⟩⟩ <;>
    cases a <;> cases b <;>
      simp [delta]

/-- Witness for C4 with both operands present: `delta(2, 5) = 5 − 2`. -/
theorem C4_delta_witness :
    (some (2 : ℚ)) = some (2 : ℚ) ∧ (some (5 : ℚ)) = some (5 : ℚ) ∧
      delta (some (2 : ℚ)) (some (5 : ℚ)) = some (5 - 2) :=
  ⟨rfl, rfl, (C4_delta_null_or_exact.1 (some 2) (some 5)).2 2 5 rfl rfl⟩

/-- C8 fails on the code: the combined SAP pattern only allows
whitespace between the current and potential parts, so a text
containing `Current SAP rating: D 65` and, later after other words,
`Potential SAP rating: B 82`, yields *no* SAP fields at all. -/
theorem C8_counterexample :
    parse_summary_sap "Current SAP rating: D 65 x Potential SAP rating: B 82".toList =
      ⟨none, none, none, none⟩ := by
  decide

/-- C8 amended: when the potential part follows the current part
separated only by whitespace (as on consecutive normalized lines), the
single combined pattern captures all four SAP fields — for Scenario A
`sap_current = 65` with band `D` and `sap_potential = 82` with band
`B` — and when the combined pattern fails all four fields are absent
together; there is no partial capture. -/
theorem C8_sap_combined_pattern :
    parse_summary_sap "Current SAP rating: D 65\nPotential SAP rating: B 82".toList =
      ⟨some 'D', some 65, some 'B', some 82⟩ ∧
    ∀ text : Chars,
      ((parse_summary_sap text).sap_current_band.isSome ∧
        (parse_summary_sap text).sap_current.isSome ∧
        (parse_summary_sap text).sap_potential_band.isSome ∧
        (parse_summary_sap text).sap_potential.isSome) ∨
      parse_summary_sap text = ⟨none, none, none, none⟩ := by
  refine ⟨by decide, fun text => ?_⟩
  unfold parse_summary_sap
  cases h : sapSearch text with
  | none => exact Or.inr rfl
  | some v =>
    obtain ⟨b1, n1, b2, n2⟩ := v
    exact Or.inl ⟨rfl, rfl, rfl, rfl⟩

/-- C3 fails on the code: already on empty input — which mentions no
attribute at all — `mechanical_ventilation`, `pv_present`,
`double_glazed` and `loft_insulated` come back `False`, not null:
"not mentioned" is collapsed into `false` for them. -/
theorem C3_counterexample :
    (parse_site_notes []).mechanical_ventilation = some false ∧
    (parse_site_notes []).pv_present = some false ∧
    (parse_site_notes []).double_glazed = some false ∧
    (parse_site_notes []).loft_insulated = some false := by
  decide

/-- C3 amended: on any text where the respective pattern finds no
match, the attributes parsed through `to_bool` with an optional
capture (`smart_gas_meter`, `flat_roof_insulated`, and likewise
`smart_elec_meter`, `cavity_wall_insulation`) are null, but
`mechanical_ventilation`, `pv_present`, `double_glazed` and
`loft_insulated` are set to `false` — for these four, "not mentioned"
is indistinguishable from an explicit `false`. -/
theorem C3_null_only_for_to_bool_fields (text : Chars)
    (h1 : searchPos sgmAt text = none) (h2 : searchPos friAt text = none)
    (h3 : mvSearch text = none) (h4 : pvSearch text = none)
    (h5 : searchPos dgAt text = none) (h6 : searchPos loftAt text = none) :
    (parse_site_notes text).smart_gas_meter = none ∧
    (parse_site_notes text).flat_roof_insulated = none ∧
    (parse_site_notes text).mechanical_ventilation = some false ∧
    (parse_site_notes text).pv_present = some false ∧
    (parse_site_notes text).double_glazed = some false ∧
    (parse_site_notes text).loft_insulated = some false := by
  refine ⟨?_, ?_, ?_, ?_, ?_, ?_⟩ <;>
    simp [parse_site_notes, h1, h2, h3, h4, h5, h6, to_bool]

/-- Witness for C3 amended at the empty text. -/
theorem C3_null_only_for_to_bool_fields_witness :
    searchPos sgmAt [] = none ∧ searchPos friAt [] = none ∧ mvSearch [] = none ∧
    pvSearch [] = none ∧ searchPos dgAt [] = none ∧ searchPos loftAt [] = none ∧
    ((parse_site_notes []).smart_gas_meter = none ∧
      (parse_site_notes []).flat_roof_insulated = none ∧
      (parse_site_notes []).mechanical_ventilation = some false ∧
      (parse_site_notes []).pv_present = some false ∧
      (parse_site_notes []).double_glazed = some false ∧
      (parse_site_notes []).loft_insulated = some false) :=
  ⟨by decide, by decide, by decide, by decide, by decide, by decide,
    C3_null_only_for_to_bool_fields [] (by decide) (by decide) (by decide) (by decide)
      (by decide) (by decide)⟩

/-- C5: for each of the six boolean QA fields, rule 1 emits exactly
one `error` finding for that field when the value goes `true → false`,
exactly one `info` finding when it goes `false → true`, and nothing
(no error, no info, and never a warning) in every other case,
including whenever either side is null. -/
theorem C5_rule1_boolean_regressions (pre post : SiteNotes)
    (g : SiteNotes → Option Bool) (label : String) (h : (g, label) ∈ boolFields) :
    countFindings (boolChecks pre post) label Level.error =
      (if g pre = some true ∧ g post = some false then 1 else 0) ∧
    countFindings (boolChecks pre post) label Level.info =
      (if g pre = some false ∧ g post = some true then 1 else 0) ∧
    countFindings (boolChecks pre post) label Level.warning = 0 := by
  simp only [boolFields, List.mem_cons, List.not_mem_nil, or_false, Prod.mk.injEq] at h
  rcases h with ⟨rfl, rfl⟩ | ⟨rfl, rfl⟩ | ⟨rfl, rfl⟩ | ⟨rfl, rfl⟩ | ⟨rfl, rfl⟩ | ⟨rfl, rfl⟩ <;>
    refine ⟨?_, ?_, ?_⟩ <;>
      simp [boolChecks, boolFields, List.flatMap_cons, List.flatMap_nil,
        countFindings_append, countFindings_check1_error, countFindings_check1_info,
        countFindings_check1_warning, countFindings_check1_ne]

/-- Witness for C5 at a `true → false` regression of `pv_present`. -/
theorem C5_rule1_witness :
    ((SiteNotes.pv_present, "Solar PV") ∈ boolFields) ∧
    countFindings
        (boolChecks { pv_present := some true } { pv_present := some false })
        "Solar PV" Level.error = 1 := by
  constructor
  · simp [boolFields]
  · have h := (C5_rule1_boolean_regressions { pv_present := some true }
      { pv_present := some false } SiteNotes.pv_present "Solar PV"
      (by simp [boolFields])).1
    simpa using h

/-- C7 fails on the code: with `heating_controls_smart = True` and a
*present* `main_heat_eff_pct` of `0.0`, rule 6 still emits the
`Heating controls` warning — the code tests Python truthiness, not
`is None`. -/
theorem C7_counterexample :
    (⟨Level.warning, "Heating controls"⟩ : Finding) ∈
        compare_site_notes {}
          { heating_controls_smart := some true, main_heat_eff_pct := some 0 } ∧
    ({ heating_controls_smart := some true,
        main_heat_eff_pct := some 0 } : SiteNotes).main_heat_eff_pct = some 0 := by
  decide

/-- C7 amended: rule 6 emits the `Heating controls` warning exactly
when `post.heating_controls_smart` is `True` and
`post.main_heat_eff_pct` is *falsy* — null or `0.0`; no other QA rule
ever emits a warning with that field. -/
theorem C7_controls_warning_iff_truthy (pre post : SiteNotes) :
    (⟨Level.warning, "Heating controls"⟩ : Finding) ∈ compare_site_notes pre post ↔
      post.heating_controls_smart = some true ∧
        (post.main_heat_eff_pct = none ∨ post.main_heat_eff_pct = some 0) := by
  rw [← hc_mem_controlsChecks_iff post]
  unfold compare_site_notes
  simp only [List.mem_append]
  constructor
  · rintro ((((((h | h) | h) | h) | h) | h) | h)
    · exact absurd h (hc_not_mem_boolChecks pre post)
    · exact absurd h (hc_not_mem_ap4Checks pre post)
    · exact absurd h (hc_not_mem_lightingChecks pre post)
    · exact absurd h (hc_not_mem_doorsChecks pre post)
    · exact absurd h (hc_not_mem_loftChecks pre post)
    · exact h
    · exact absurd h (hc_not_mem_pvChecks pre post)
  · intro h
    exact Or.inl (Or.inr h)

/-- C6: the text normalizer's output has no empty lines and no run of
two (or more) spaces, and normalizing its own output returns it
unchanged. -/
theorem C6_normalizer_clean_and_idempotent (s : Chars) :
    (∀ l ∈ splitLinesPy (normalize_text s), l ≠ []) ∧
    ¬ ([' ', ' '] <:+: normalize_text s) ∧
    normalize_text (normalize_text s) = normalize_text s := by
  set L := ((splitLinesPy s).map norm_ws).filter (fun l => !l.isEmpty) with hLdef
  have hmem : ∀ l ∈ L, (∃ l0, l = norm_ws l0) ∧ l ≠ [] := by
    intro l hl
    rw [hLdef] at hl
    obtain ⟨hl1, hl2⟩ := List.mem_filter.mp hl
    obtain ⟨l0, -, hl0⟩ := List.mem_map.mp hl1
    refine ⟨⟨l0, hl0.symm⟩, ?_⟩
    intro hcon
    rw [hcon] at hl2
    cases hl2
  have hprops : ∀ l ∈ L, breakFree l ∧ l ≠ [] ∧ noTwoWs l = true ∧
      headNotWs l = true ∧ lastNotWs l = true ∧
      (∀ c ∈ l, isWsC c = true → c = ' ') := by
    intro l hl
    obtain ⟨⟨l0, rfl⟩, hne⟩ := hmem l hl
    exact ⟨norm_ws_breakFree l0, hne, norm_ws_noTwoWs l0, norm_ws_headNotWs l0,
      norm_ws_lastNotWs l0, fun c hc => norm_ws_ws_is_space hc⟩
  have hnorm : normalize_text s = joinNl L := by rw [hLdef]; rfl
  have hsplit : splitLinesPy (joinNl L) = L :=
    splitLinesPy_joinNl fun l hl => ⟨(hprops l hl).1, (hprops l hl).2.1⟩
  refine ⟨?_, ?_, ?_⟩
  · rw [hnorm, hsplit]
    exact fun l hl => (hprops l hl).2.1
  · rw [hnorm]
    refine noTwoWs_no_double_space (noTwoWs_joinNl ?_)
    exact fun l hl => ⟨(hprops l hl).2.2.1, (hprops l hl).2.2.2.1,
      (hprops l hl).2.2.2.2.1, (hprops l hl).2.1⟩
  · rw [hnorm]
    show joinNl (((splitLinesPy (joinNl L)).map norm_ws).filter fun l => !l.isEmpty) =
      joinNl L
    rw [hsplit]
    have hmap : L.map norm_ws = L := by
      rw [List.map_congr_left fun l hl =>
        norm_ws_fix (hprops l hl).2.2.2.2.2 (hprops l hl).2.2.1
          (hprops l hl).2.2.2.1 (hprops l hl).2.2.2.2.1]
      simp
    rw [hmap, List.filter_eq_self.mpr ?_]
    intro l hl
    have hne := (hprops l hl).2.1
    simp only [Bool.not_eq_true']
    cases l with
    | nil => exact absurd rfl hne
    | cons c t => rfl

/-- Witness for C6 at a messy concrete input. -/
theorem C6_normalizer_witness :
    "a".toList ∈ splitLinesPy (normalize_text "a \n\n  b \t c ".toList) ∧
    "a".toList ≠ [] ∧
    ¬ ([' ', ' '] <:+: normalize_text "a \n\n  b \t c ".toList) ∧
    normalize_text (normalize_text "a \n\n  b \t c ".toList) =
      normalize_text "a \n\n  b \t c ".toList :=
  ⟨by decide,
    (C6_normalizer_clean_and_idempotent "a \n\n  b \t c ".toList).1 _ (by decide),
    (C6_normalizer_clean_and_idempotent "a \n\n  b \t c ".toList).2.1,
    (C6_normalizer_clean_and_idempotent "a \n\n  b \t c ".toList).2.2⟩

end AmicoEco
